import Mathlib

/-!
Verification of the Shopearn Pro API click-attribution and redirect pipeline
(`src/main.py`, `src/schemas.py`), shallowly embedded in Lean 4.

The document store (`database.py`: the `db` handle and `create_document`) is
not part of the sources; its semantics — insert appends a document,
`find_one` returns the first matching document, `update_one` / `delete_one`
affect the first matching document, `$inc` / `$set` are per-document
updates — are modelled from the spec's collaborator-interface section.
Documents live in per-collection lists; `find_one({})` is the head of the
list. Timestamps are integers, ids and URLs are strings.
-/

/-- Outcome of a request: an HTTP error raised via `HTTPException`, or an
unhandled pydantic `ValidationError` (surfaced by the framework as a 500). -/
inductive ApiErr where
  | httpErr (status : Nat) (detail : String)
  | validationErr
deriving DecidableEq, Repr

/-- A `RedirectResponse(url=..., status_code=...)`. The url is optional
because `prod.get("affiliate_link")` can be `None`. -/
structure Redirect where
  url : Option String
  status : Nat
deriving DecidableEq, Repr

/-- Request metadata read by the handlers: `request.client.host` and the
`user-agent` header. -/
structure RequestMeta where
  ip : Option String
  user_agent : Option String
deriving DecidableEq, Repr

/-- Field `Click.target`: `Literal["product", "vendor_logo"]` (schemas.py). -/
inductive ClickTarget where
  | product
  | vendor_logo
deriving DecidableEq, Repr

/-- A document of the `click` collection (schemas.py `Click`).
Modelled from the spec: `create_document` (database.py, not in the sources)
also assigns a fresh id and creation timestamp; those fields are not part of
any claim and are elided. -/
structure Click where
  product_id : Option String := none
  affiliate_id : Option String := none
  user_id : Option String := none
  target : ClickTarget
  vendor : Option String := none
  ip : Option String := none
  user_agent : Option String := none
deriving DecidableEq, Repr

/-- A document of the `product` collection (schemas.py `Product`), restricted
to the fields the redirect pipeline, deal filter and counters read or write.
`affiliate_id` and `affiliate_link` are optional because the handlers read
them with `.get` (a stored document may lack them); an empty string models an
empty value. -/
structure Product where
  id : String
  affiliate_id : Option String := none
  affiliate_link : Option String := none
  hot_deal : Bool := false
  hot_deal_expires_at : Option Int := none
  clicks : Int := 0
  orders : Int := 0
  updated_at : Int := 0
deriving DecidableEq, Repr

/-- A document of the `order` collection (schemas.py `Order`). -/
structure Order where
  user_id : String
  product_id : String
  affiliate_id : Option String := none
  status : String := "redirected"
  vendor_url : Option String := none
deriving DecidableEq, Repr

/-- An `adminsetting` document: a raw key/value mapping as stored in Mongo
(`"_id"` included). A value of `none` models a field stored as null. -/
abbrev AdminDoc := List (String × Option String)

/-- The store state: one list of documents per collection touched by the
pipeline. `find_one({})` returns the head of a list; inserts append. -/
structure DB where
  products : List Product := []
  clicks : List Click := []
  orders : List Order := []
  adminsetting : List AdminDoc := []
deriving DecidableEq, Repr

/-! ### Store helpers (modelled from the spec's document-store interface) -/

/-- Store op `update_one`: rewrite the first element satisfying `p` with `f`. -/
def updateFirst (p : α → Bool) (f : α → α) : List α → List α
  | [] => []
  | x :: xs => if p x then f x :: xs else x :: updateFirst p f xs

/-- Store op `delete_one`: remove the first element satisfying `p`. -/
def eraseFirst (p : α → Bool) : List α → List α
  | [] => []
  | x :: xs => if p x then xs else x :: eraseFirst p xs

/-- Store read `find_one` with an `_id` filter on the `product` collection. -/
def findProduct (db : DB) (pid : String) : Option Product :=
  db.products.find? (fun p => p.id == pid)

/-- Python `key in dict`. -/
def hasKey (d : AdminDoc) (k : String) : Bool :=
  d.any (fun kv => kv.1 == k)

/-- Python `dict.get(key)`: `none` when the key is absent or stored null. -/
def getKey (d : AdminDoc) (k : String) : Option String :=
  match d.find? (fun kv => kv.1 == k) with
  | some kv => kv.2
  | none => none

/-! ### Helpers from main.py -/

/-- Helper `oid` (main.py): `ObjectId(id_str)` succeeds exactly on 24-character
hexadecimal strings; anything else raises, mapped to 400 "Invalid id". -/
def isValidObjectId (s : String) : Bool :=
  s.length == 24 && s.toList.all (fun c => c.isDigit || ('a' ≤ c && c ≤ 'f') || ('A' ≤ c && c ≤ 'F'))

/-- The `Vendor` literal of schemas.py. Pydantic validates `Click.vendor`
against it when `ClickSchema(...)` is constructed in `redirect_vendor`. -/
def vendorNames : List String :=
  ["amazon", "flipkart", "meesho", "shopify", "myntra", "ajio", "alibaba", "snapdeal"]

def isVendorName (v : String) : Bool := vendorNames.contains v

/-! ### Redirect dispatcher (main.py `redirect_vendor`, `redirect_product`) -/

/-- The url lookup of `redirect_vendor` (main.py lines 240-244):
`settings = find_one({})`; `url = settings.get(vendor)` when `settings` is
truthy and `vendor in settings` (a raw key-membership test; a doc matching
the membership test is nonempty, so the dict-truthiness test is subsumed). -/
def vendorUrl (db : DB) (vendor : String) : Option String :=
  match db.adminsetting.head? with
  | none => none
  | some settings => if hasKey settings vendor then getKey settings vendor else none

/-- Endpoint `GET /r/{vendor}` (main.py `redirect_vendor`): resolve the url from the
singleton admin-settings document; `if not url` (absent, null or empty)
raise 404 "Link not available yet"; otherwise build the click record —
pydantic validates `vendor` against the `Vendor` literal here, raising a
`ValidationError` for any other string — store it, and 302-redirect. -/
def redirect_vendor (db : DB) (vendor : String) (user_id : Option String)
    (req : RequestMeta) : Except ApiErr Redirect × DB :=
  match vendorUrl db vendor with
  | none => (.error (.httpErr 404 "Link not available yet"), db)
  | some u =>
    if u = "" then (.error (.httpErr 404 "Link not available yet"), db)
    else if isVendorName vendor then
      let click : Click :=
        { target := .vendor_logo, vendor := some vendor, user_id := user_id,
          ip := req.ip, user_agent := req.user_agent }
      (.ok ⟨some u, 302⟩, { db with clicks := db.clicks ++ [click] })
    else
      (.error .validationErr, db)

/-- Endpoint `GET /r/product/{product_id}` (main.py `redirect_product`): `oid` rejects
malformed ids with 400 before the store is touched; a missing product is 404;
otherwise `$inc` clicks by 1 and `$set` updated_at on the first document with
that `_id`, append one click record, and 302-redirect to
`prod.get("affiliate_link")` as-is. -/
def redirect_product (db : DB) (product_id : String) (user_id : Option String)
    (req : RequestMeta) (now : Int) : Except ApiErr Redirect × DB :=
  if isValidObjectId product_id then
    match findProduct db product_id with
    | none => (.error (.httpErr 404 "Product not found"), db)
    | some prod =>
      let bump : Product → Product := fun p => { p with clicks := p.clicks + 1, updated_at := now }
      let db1 : DB := { db with products := updateFirst (fun p => p.id == prod.id) bump db.products }
      let click : Click :=
        { target := .product, product_id := some prod.id,
          affiliate_id := prod.affiliate_id, user_id := user_id,
          ip := req.ip, user_agent := req.user_agent }
      (.ok ⟨prod.affiliate_link, 302⟩, { db1 with clicks := db1.clicks ++ [click] })
  else
    (.error (.httpErr 400 "Invalid id"), db)

/-! ### Deal filter (main.py `list_products` with `hot_only=true`) -/

/-- The `$or` branch of the hot filter: `hot_deal_expires_at` is null (or
missing) or strictly greater than `now`. -/
def hotExpiryActive (now : Int) : Option Int → Bool
  | none => true
  | some t => now < t

/-- The filter built by `list_products` when `hot_only` is set:
`hot_deal == True` and the expiry disjunction. -/
def hotFilter (now : Int) (p : Product) : Bool :=
  p.hot_deal && hotExpiryActive now p.hot_deal_expires_at

/-- Descending insertion by `updated_at`, modelling `.sort("updated_at", -1)`. -/
def insertByUpdated (p : Product) : List Product → List Product
  | [] => [p]
  | q :: qs => if q.updated_at ≤ p.updated_at then p :: q :: qs else q :: insertByUpdated p qs

def sortByUpdatedDesc : List Product → List Product
  | [] => []
  | p :: ps => insertByUpdated p (sortByUpdatedDesc ps)

/-- Endpoint `GET /products?hot_only=true` with no other filters: the matching
documents, sorted by `updated_at` descending. -/
def list_products_hot (db : DB) (now : Int) : List Product :=
  sortByUpdatedDesc (db.products.filter (hotFilter now))

/-! ### Product CRUD state effects (main.py) -/

/-- The `ProductIn` request body, restricted to the modelled fields. -/
structure ProductIn where
  affiliate_id : String
  affiliate_link : String
  hot_deal : Bool := false
  hot_deal_expires_at : Option Int := none
deriving DecidableEq, Repr

/-- Endpoint `POST /products` state effect: insert a document with `clicks = 0`,
`orders = 0` (schema defaults). Modelled from the spec: `create_document`
(not in the sources) assigns the fresh id and stamps creation/update time. -/
def newProduct (pin : ProductIn) (freshId : String) (now : Int) : Product :=
  { id := freshId, affiliate_id := some pin.affiliate_id,
    affiliate_link := some pin.affiliate_link, hot_deal := pin.hot_deal,
    hot_deal_expires_at := pin.hot_deal_expires_at, clicks := 0, orders := 0,
    updated_at := now }

def create_product (db : DB) (pin : ProductIn) (freshId : String) (now : Int) : DB :=
  { db with products := db.products ++ [newProduct pin freshId now] }

/-- Endpoint `PUT /products/{product_id}` takes an arbitrary `Dict[str, Any]` payload
(only `"_id"` is popped) and merges it with `$set`; this models that payload
restricted to the embedded product fields — each field optionally overridden,
counters included. -/
structure UpdatePayload where
  clicks : Option Int := none
  orders : Option Int := none
  affiliate_id : Option (Option String) := none
  affiliate_link : Option (Option String) := none
  hot_deal : Option Bool := none
  hot_deal_expires_at : Option (Option Int) := none
deriving DecidableEq, Repr

/-- The `$set` of `update_product`: overwrite the fields named by the
payload and stamp `updated_at`. -/
def applySet (pl : UpdatePayload) (now : Int) (p : Product) : Product :=
  { p with
    clicks := pl.clicks.getD p.clicks,
    orders := pl.orders.getD p.orders,
    affiliate_id := pl.affiliate_id.getD p.affiliate_id,
    affiliate_link := pl.affiliate_link.getD p.affiliate_link,
    hot_deal := pl.hot_deal.getD p.hot_deal,
    hot_deal_expires_at := pl.hot_deal_expires_at.getD p.hot_deal_expires_at,
    updated_at := now }

/-- Endpoint `PUT /products/{product_id}` state effect: `update_one` on the first
document with that `_id`. A malformed id (400) or no match (404) leaves the
store unchanged. -/
def update_product (db : DB) (pid : String) (pl : UpdatePayload) (now : Int) : DB :=
  if isValidObjectId pid then
    { db with products := updateFirst (fun p => p.id == pid) (applySet pl now) db.products }
  else db

/-- Endpoint `DELETE /products/{product_id}` state effect: `delete_one`. -/
def delete_product (db : DB) (pid : String) : DB :=
  if isValidObjectId pid then
    { db with products := eraseFirst (fun p => p.id == pid) db.products }
  else db

/-- The `$inc` of order creation. -/
def bumpOrder (p : Product) : Product :=
  { p with orders := p.orders + 1 }

/-- Endpoint `POST /orders` state effect (main.py `create_order`): load the product,
insert one order snapshotting `affiliate_id` and `affiliate_link`, and `$inc`
the product's `orders` by 1. Malformed id (400) or missing product (404)
leave the store unchanged. -/
def create_order (db : DB) (user_id pid : String) : DB :=
  if isValidObjectId pid then
    match findProduct db pid with
    | none => db
    | some prod =>
      let ord : Order :=
        { user_id := user_id, product_id := pid, affiliate_id := prod.affiliate_id,
          status := "redirected", vendor_url := prod.affiliate_link }
      { db with orders := db.orders ++ [ord],
                products := updateFirst (fun p => p.id == prod.id) bumpOrder db.products }
  else db

/-! ### Admin settings (main.py `save_admin_settings`) -/

/-- One `$set` entry on an admin-settings document: overwrite the key if
present, else add it. -/
def setKey (k : String) (v : Option String) (d : AdminDoc) : AdminDoc :=
  if d.any (fun kv => kv.1 == k) then d.map (fun kv => if kv.1 == k then (k, v) else kv)
  else d ++ [(k, v)]

/-- Merge of a whole `$set` payload. -/
def mergeSet (payload : List (String × Option String)) (d : AdminDoc) : AdminDoc :=
  payload.foldl (fun d kv => setKey kv.1 kv.2 d) d

/-- Per-field outcome of pydantic's `Optional[HttpUrl]` validation on
`AdminSettingSchema` (schemas.py lines 71-80), abstracted as a parameter:
`none` means the string fails URL validation (pydantic raises a
`ValidationError`), `some u` means success with the normalized URL string.
The URL grammar and the normalization live in the pydantic library, not in
this repository, so they are not reimplemented; the theorems below hold for
an arbitrary validator. -/
abbrev UrlValidator := String → Option String

/-- Validation of one `Optional[HttpUrl]` field: a null or absent value
passes as null (the field default), a string value goes through the
validator. -/
def validateField (val : UrlValidator) : Option String → Option (Option String)
  | none => some none
  | some s => (val s).map some

/-- The document built by `AdminSettingSchema(**payload)` on first save:
pydantic keeps exactly the eight vendor fields (extras are ignored, absent
ones default to null) and validates each present value as an `HttpUrl` —
a result of `none` models the `ValidationError` raised when any value
fails. The insert assigns a fresh `_id`. -/
def mkAdminSettingDoc (val : UrlValidator) (payload : List (String × Option String))
    (freshId : String) : Option AdminDoc :=
  (vendorNames.mapM (fun v => (validateField val (getKey payload v)).map (fun u => (v, u)))).map
    (fun fields => ("_id", some freshId) :: fields)

/-- Endpoint `POST /admin/settings` state effect: pop `"_id"` from the
payload; if a document exists (`find_one({})`), `$set` the raw payload onto
it via its `_id` — no validation on this path; otherwise run the payload
through `AdminSettingSchema` — on validation failure the `ValidationError`
escapes (a 500) and nothing is inserted — and insert the single resulting
document. -/
def save_admin_settings (val : UrlValidator) (db : DB)
    (payload : List (String × Option String)) (freshId : String) :
    Except ApiErr Unit × DB :=
  match db.adminsetting.head? with
  | some existing =>
    (.ok (), { db with adminsetting := updateFirst (fun d => getKey d "_id" == getKey existing "_id") (mergeSet (payload.filter (fun kv => kv.1 != "_id"))) db.adminsetting })
  | none =>
    match mkAdminSettingDoc val (payload.filter (fun kv => kv.1 != "_id")) freshId with
    | some doc => (.ok (), { db with adminsetting := db.adminsetting ++ [doc] })
    | none => (.error .validationErr, db)

/-! ### The operations that touch the product collection or the pipeline's
collections, as one step type. Handlers not listed here (auth, user CRUD,
subscription and listing endpoints) never read or write the `product`,
`click`, `order` or `adminsetting` documents modelled above, except read-only
listings. -/

inductive Op where
  | opCreateProduct (pin : ProductIn) (freshId : String) (now : Int)
  | opUpdateProduct (pid : String) (pl : UpdatePayload) (now : Int)
  | opDeleteProduct (pid : String)
  | opRedirectProduct (pid : String) (uid : Option String) (req : RequestMeta) (now : Int)
  | opRedirectVendor (vendor : String) (uid : Option String) (req : RequestMeta)
  | opCreateOrder (uid pid : String)
  | opSaveAdminSettings (val : UrlValidator) (payload : List (String × Option String))
      (freshId : String)

def Op.apply : Op → DB → DB
  | .opCreateProduct pin fid now, db => create_product db pin fid now
  | .opUpdateProduct pid pl now, db => update_product db pid pl now
  | .opDeleteProduct pid, db => delete_product db pid
  | .opRedirectProduct pid uid req now, db => (redirect_product db pid uid req now).2
  | .opRedirectVendor v uid req, db => (redirect_vendor db v uid req).2
  | .opCreateOrder uid pid, db => create_order db uid pid
  | .opSaveAdminSettings val pl fid, db => (save_admin_settings val db pl fid).2

/-- A generic product update whose payload does not name the counter
fields; every other operation is unrestricted. -/
def Op.countersUntouched : Op → Prop
  | .opUpdateProduct _ pl _ => pl.clicks = none ∧ pl.orders = none
  | _ => True

def Op.isRedirectProduct : Op → Bool
  | .opRedirectProduct _ _ _ _ => true
  | _ => false

def Op.isCreateOrder : Op → Bool
  | .opCreateOrder _ _ => true
  | _ => false

/-! ### Store lemmas -/

theorem find?_updateFirst_eq (keyOf : α → String) (f : α → α) (k : String)
    (hf : ∀ x, keyOf (f x) = keyOf x) (l : List α) :
    (updateFirst (fun x => keyOf x == k) f l).find? (fun x => keyOf x == k)
      = (l.find? (fun x => keyOf x == k)).map f := by
  induction l with
  | nil => rfl
  | cons x xs ih =>
    by_cases h : keyOf x = k
    · have hb : (keyOf x == k) = true := by simp [h]
      have hbf : (keyOf (f x) == k) = true := by simp [hf x, h]
      simp [updateFirst, List.find?, hb, hbf]
    · have hb : (keyOf x == k) = false := beq_eq_false_iff_ne.mpr h
      simp [updateFirst, List.find?, hb, ih]

theorem find?_updateFirst_ne (keyOf : α → String) (f : α → α) (k k2 : String)
    (hne : k ≠ k2) (hf : ∀ x, keyOf (f x) = keyOf x) (l : List α) :
    (updateFirst (fun x => keyOf x == k2) f l).find? (fun x => keyOf x == k)
      = l.find? (fun x => keyOf x == k) := by
  induction l with
  | nil => rfl
  | cons x xs ih =>
    by_cases h2 : keyOf x = k2
    · have hb2 : (keyOf x == k2) = true := by simp [h2]
      have hbk : (keyOf x == k) = false :=
        beq_eq_false_iff_ne.mpr (by rw [h2]; exact fun hc => hne hc.symm)
      have hbfk : (keyOf (f x) == k) = false := by rw [hf x]; exact hbk
      simp [updateFirst, List.find?, hb2, hbk, hbfk]
    · have hb2 : (keyOf x == k2) = false := beq_eq_false_iff_ne.mpr h2
      by_cases hk : keyOf x = k
      · have hbk : (keyOf x == k) = true := by simp [hk]
        simp [updateFirst, List.find?, hb2, hbk]
      · have hbk : (keyOf x == k) = false := beq_eq_false_iff_ne.mpr hk
        simp [updateFirst, List.find?, hb2, hbk, ih]

theorem find?_append_some (p : α → Bool) {l : List α} (l2 : List α) {a : α}
    (h : l.find? p = some a) : (l ++ l2).find? p = some a := by
  rw [List.find?_append, h]
  rfl

theorem find?_eq_none_of_key_not_mem (keyOf : α → String) (k : String) (l : List α)
    (h : k ∉ l.map keyOf) : l.find? (fun x => keyOf x == k) = none := by
  rw [List.find?_eq_none]
  intro x hx
  simp only [beq_iff_eq]
  intro hc
  exact h (hc ▸ List.mem_map_of_mem keyOf hx)

theorem find?_eraseFirst_self (keyOf : α → String) (k : String) (l : List α)
    (hnd : (l.map keyOf).Nodup) :
    (eraseFirst (fun x => keyOf x == k) l).find? (fun x => keyOf x == k) = none := by
  induction l with
  | nil => rfl
  | cons x xs ih =>
    simp only [List.map_cons, List.nodup_cons] at hnd
    by_cases h : keyOf x = k
    · have hb : (keyOf x == k) = true := by simp [h]
      simp only [eraseFirst, hb, if_true]
      exact find?_eq_none_of_key_not_mem keyOf k xs (h ▸ hnd.1)
    · have hb : (keyOf x == k) = false := beq_eq_false_iff_ne.mpr h
      simp [eraseFirst, List.find?, hb, ih hnd.2]

theorem find?_eraseFirst_ne (keyOf : α → String) (k k2 : String)
    (hne : k ≠ k2) (l : List α) :
    (eraseFirst (fun x => keyOf x == k2) l).find? (fun x => keyOf x == k)
      = l.find? (fun x => keyOf x == k) := by
  induction l with
  | nil => rfl
  | cons x xs ih =>
    by_cases h2 : keyOf x = k2
    · have hb2 : (keyOf x == k2) = true := by simp [h2]
      have hbk : (keyOf x == k) = false :=
        beq_eq_false_iff_ne.mpr (by rw [h2]; exact fun hc => hne hc.symm)
      simp [eraseFirst, List.find?, hb2, hbk]
    · have hb2 : (keyOf x == k2) = false := beq_eq_false_iff_ne.mpr h2
      by_cases hk : keyOf x = k
      · have hbk : (keyOf x == k) = true := by simp [hk]
        simp [eraseFirst, List.find?, hb2, hbk]
      · have hbk : (keyOf x == k) = false := beq_eq_false_iff_ne.mpr hk
        simp [eraseFirst, List.find?, hb2, hbk, ih]

theorem updateFirst_length (p : α → Bool) (f : α → α) (l : List α) :
    (updateFirst p f l).length = l.length := by
  induction l with
  | nil => rfl
  | cons x xs ih =>
    by_cases h : p x
    · simp [updateFirst, h]
    · simp [updateFirst, h, ih]

theorem mem_insertByUpdated (p q : Product) (l : List Product) :
    p ∈ insertByUpdated q l ↔ p = q ∨ p ∈ l := by
  induction l with
  | nil => simp [insertByUpdated]
  | cons x xs ih =>
    by_cases h : x.updated_at ≤ q.updated_at
    · simp [insertByUpdated, h]
    · simp [insertByUpdated, h, ih]
      tauto

theorem mem_sortByUpdatedDesc (p : Product) (l : List Product) :
    p ∈ sortByUpdatedDesc l ↔ p ∈ l := by
  induction l with
  | nil => simp [sortByUpdatedDesc]
  | cons x xs ih =>
    simp [sortByUpdatedDesc, mem_insertByUpdated, ih]

/-! ### Behaviour of `redirect_product` -/

/-- The counter bump of `redirect_product`: `$inc` clicks, `$set` updated_at. -/
def bumpClick (now : Int) (p : Product) : Product :=
  { p with clicks := p.clicks + 1, updated_at := now }

/-- The click record built by `redirect_product`. -/
def mkProductClick (pid : String) (aff uid : Option String) (req : RequestMeta) : Click :=
  { target := .product, product_id := some pid, affiliate_id := aff, user_id := uid,
    ip := req.ip, user_agent := req.user_agent }

theorem redirect_product_spec (db : DB) (pid : String) (uid : Option String)
    (req : RequestMeta) (now : Int) (p : Product)
    (hv : isValidObjectId pid = true) (hf : findProduct db pid = some p) :
    redirect_product db pid uid req now =
      (.ok ⟨p.affiliate_link, 302⟩,
       { products := updateFirst (fun q => q.id == pid) (bumpClick now) db.products,
         clicks := db.clicks ++ [mkProductClick pid p.affiliate_id uid req],
         orders := db.orders,
         adminsetting := db.adminsetting }) := by
  have hf2 : db.products.find? (fun q => q.id == pid) = some p := hf
  have hid : p.id = pid := by simpa using List.find?_some hf2
  simp [redirect_product, hv, hf, hid, bumpClick, mkProductClick]
  rfl

theorem findProduct_after_redirect (db : DB) (pid : String) (uid : Option String)
    (req : RequestMeta) (now : Int) (p : Product)
    (hv : isValidObjectId pid = true) (hf : findProduct db pid = some p) :
    findProduct (redirect_product db pid uid req now).2 pid = some (bumpClick now p) := by
  rw [redirect_product_spec db pid uid req now p hv hf]
  have hmap := find?_updateFirst_eq Product.id (bumpClick now) pid (fun x => rfl) db.products
  have hf2 : db.products.find? (fun q => q.id == pid) = some p := hf
  show (updateFirst (fun q => q.id == pid) (bumpClick now) db.products).find?
      (fun q => q.id == pid) = some (bumpClick now p)
  rw [hmap, hf2]
  rfl

/-! ### Concrete documents for witnesses and counterexamples -/

def reqEx : RequestMeta := { ip := some "1.2.3.4", user_agent := some "agent-x" }

def pidEx : String := "aaaaaaaaaaaaaaaaaaaaaaaa"

def prodEx : Product :=
  { id := pidEx, affiliate_id := some "aff1", affiliate_link := some "http://shop.example/a",
    clicks := 5, orders := 2, updated_at := 10 }

def dbEx : DB := { products := [prodEx] }

/-! ### Claims about the product redirect -/

/-- C1: for a well-formed product id present in the store, the product
redirect increments that product's `clicks` by exactly 1, appends exactly one
click record with target "product", the product's id and affiliate_id, the
optional user id and the request's ip and user-agent, and returns a 302
redirect; no other collection changes. -/
theorem C1_redirect_product_tracks_click (db : DB) (pid : String)
    (uid : Option String) (req : RequestMeta) (now : Int) (p : Product)
    (hv : isValidObjectId pid = true) (hf : findProduct db pid = some p) :
    (redirect_product db pid uid req now).1 = .ok ⟨p.affiliate_link, 302⟩ ∧
    findProduct (redirect_product db pid uid req now).2 pid
      = some { p with clicks := p.clicks + 1, updated_at := now } ∧
    (redirect_product db pid uid req now).2.clicks
      = db.clicks ++ [mkProductClick pid p.affiliate_id uid req] ∧
    (redirect_product db pid uid req now).2.orders = db.orders ∧
    (redirect_product db pid uid req now).2.adminsetting = db.adminsetting := by
  have hs := redirect_product_spec db pid uid req now p hv hf
  have hfind := findProduct_after_redirect db pid uid req now p hv hf
  rw [hs] at hfind ⊢
  exact ⟨rfl, hfind, rfl, rfl, rfl⟩

theorem C1_witness :
    isValidObjectId pidEx = true ∧ findProduct dbEx pidEx = some prodEx ∧
    (redirect_product dbEx pidEx (some "user7") reqEx 11).1
      = .ok ⟨some "http://shop.example/a", 302⟩ ∧
    findProduct (redirect_product dbEx pidEx (some "user7") reqEx 11).2 pidEx
      = some { prodEx with clicks := 6, updated_at := 11 } ∧
    (redirect_product dbEx pidEx (some "user7") reqEx 11).2.clicks
      = [mkProductClick pidEx (some "aff1") (some "user7") reqEx] := by
  have h := C1_redirect_product_tracks_click dbEx pidEx (some "user7") reqEx 11 prodEx
    (by decide) rfl
  exact ⟨by decide, rfl, h.1, h.2.1, h.2.2.1⟩

/-- C4: a malformed product id fails with 400 "Invalid id" and the store is
untouched: no product read, no increment, no click record. -/
theorem C4_redirect_product_invalid_id (db : DB) (pid : String)
    (uid : Option String) (req : RequestMeta) (now : Int)
    (hv : isValidObjectId pid = false) :
    redirect_product db pid uid req now = (.error (.httpErr 400 "Invalid id"), db) := by
  simp [redirect_product, hv]

theorem C4_witness :
    isValidObjectId "not-an-object-id" = false ∧
    redirect_product dbEx "not-an-object-id" none reqEx 11
      = (.error (.httpErr 400 "Invalid id"), dbEx) := by
  exact ⟨by decide, C4_redirect_product_invalid_id dbEx "not-an-object-id" none reqEx 11 (by decide)⟩

/-- C8: a stored product whose `affiliate_link` is missing, null or empty is
redirected to as-is: the dispatcher returns exactly the stored value as the
302 destination and substitutes no default. -/
theorem C8_redirect_product_link_as_is (db : DB) (pid : String)
    (uid : Option String) (req : RequestMeta) (now : Int) (p : Product)
    (hv : isValidObjectId pid = true) (hf : findProduct db pid = some p)
    (hlink : p.affiliate_link = none ∨ p.affiliate_link = some "") :
    (redirect_product db pid uid req now).1 = .ok ⟨p.affiliate_link, 302⟩ := by
  rw [redirect_product_spec db pid uid req now p hv hf]

def pidNoLink : String := "bbbbbbbbbbbbbbbbbbbbbbbb"

def prodNoLink : Product := { id := pidNoLink, affiliate_id := some "aff2", clicks := 0 }

def dbNoLink : DB := { products := [prodNoLink] }

theorem C8_witness :
    prodNoLink.affiliate_link = none ∧
    (redirect_product dbNoLink pidNoLink none reqEx 3).1 = .ok ⟨none, 302⟩ := by
  exact ⟨rfl, C8_redirect_product_link_as_is dbNoLink pidNoLink none reqEx 3 prodNoLink
    (by decide) rfl (Or.inl rfl)⟩

/-! ### Sequential iteration of the product redirect (C6) -/

def iterRedirectProduct (pid : String) (uid : Option String) (req : RequestMeta)
    (now : Int) : Nat → DB → DB
  | 0, db => db
  | n + 1, db => iterRedirectProduct pid uid req now n (redirect_product db pid uid req now).2

/-- C6: calling the product redirect N times sequentially increments the
product's `clicks` by exactly N. -/
theorem C6_redirect_product_iterated (db : DB) (pid : String) (uid : Option String)
    (req : RequestMeta) (now : Int) (p : Product) (n : Nat)
    (hv : isValidObjectId pid = true) (hf : findProduct db pid = some p) :
    ∃ q, findProduct (iterRedirectProduct pid uid req now n db) pid = some q ∧
      q.clicks = p.clicks + (n : Int) := by
  induction n generalizing db p with
  | zero =>
    refine ⟨p, ?_, ?_⟩
    · simpa [iterRedirectProduct] using hf
    · simp
  | succ m ih =>
    have hstep := findProduct_after_redirect db pid uid req now p hv hf
    obtain ⟨q, hq, hcl⟩ := ih (redirect_product db pid uid req now).2 (bumpClick now p) hstep
    refine ⟨q, ?_, ?_⟩
    · simpa [iterRedirectProduct] using hq
    · rw [hcl]
      simp [bumpClick]
      ring

theorem C6_witness :
    ∃ q, findProduct (iterRedirectProduct pidEx none reqEx 11 3 dbEx) pidEx = some q ∧
      q.clicks = 8 := by
  obtain ⟨q, hq, hcl⟩ :=
    C6_redirect_product_iterated dbEx pidEx none reqEx 11 prodEx 3 (by decide) rfl
  exact ⟨q, hq, by rw [hcl]; rfl⟩

/-! ### Claims about the vendor redirect -/

/-- The click record built by `redirect_vendor`. -/
def mkVendorClick (vendor : String) (uid : Option String) (req : RequestMeta) : Click :=
  { target := .vendor_logo, vendor := some vendor, user_id := uid,
    ip := req.ip, user_agent := req.user_agent }

theorem hasKey_of_getKey_eq_some (d : AdminDoc) (k : String) (u : String)
    (h : getKey d k = some u) : hasKey d k = true := by
  unfold getKey at h
  cases hf : d.find? (fun kv => kv.1 == k) with
  | none => rw [hf] at h; exact absurd h (by simp)
  | some kv =>
    have hmem := List.mem_of_find?_eq_some hf
    have hpred := List.find?_some hf
    exact List.any_eq_true.mpr ⟨kv, hmem, hpred⟩

/-- C3: when no admin-settings document exists, or the vendor key is absent,
or its stored value is null or empty, the vendor redirect fails with 404
"Link not available yet" and the whole store is left unchanged — in
particular no click record is created. -/
theorem C3_redirect_vendor_not_configured (db : DB) (vendor : String)
    (uid : Option String) (req : RequestMeta)
    (h : db.adminsetting.head? = none ∨
      ∃ s, db.adminsetting.head? = some s ∧
        (hasKey s vendor = false ∨ getKey s vendor = none ∨ getKey s vendor = some "")) :
    redirect_vendor db vendor uid req = (.error (.httpErr 404 "Link not available yet"), db) := by
  have hurl : vendorUrl db vendor = none ∨ vendorUrl db vendor = some "" := by
    rcases h with h | ⟨s, hs, hc⟩
    · exact Or.inl (by simp [vendorUrl, h])
    · rcases hc with hk | hg | hg
      · exact Or.inl (by simp [vendorUrl, hs, hk])
      · cases hhk : hasKey s vendor
        · exact Or.inl (by simp [vendorUrl, hs, hhk])
        · exact Or.inl (by simp [vendorUrl, hs, hhk, hg])
      · cases hhk : hasKey s vendor
        · exact Or.inl (by simp [vendorUrl, hs, hhk])
        · exact Or.inr (by simp [vendorUrl, hs, hhk, hg])
  rcases hurl with h2 | h2 <;> simp [redirect_vendor, h2]

/-- The admin-settings document used in witnesses: `_id` plus one configured
enum vendor (amazon), one empty (flipkart), one null (meesho), and one
non-enum key with a configured URL (mystore). -/
def adminDocEx : AdminDoc :=
  [("_id", some "0123456789abcdef01234567"),
   ("amazon", some "http://amz.example/tag"),
   ("flipkart", some ""),
   ("meesho", none),
   ("mystore", some "http://mystore.example")]

def dbVendorEx : DB := { adminsetting := [adminDocEx] }

theorem C3_witness :
    getKey adminDocEx "flipkart" = some "" ∧
    redirect_vendor dbVendorEx "flipkart" none reqEx
      = (.error (.httpErr 404 "Link not available yet"), dbVendorEx) := by
  refine ⟨rfl, C3_redirect_vendor_not_configured dbVendorEx "flipkart" none reqEx ?_⟩
  exact Or.inr ⟨adminDocEx, rfl, Or.inr (Or.inr rfl)⟩

/-- C2 as stated is false: a vendor name outside the schema's `Vendor`
literal can carry a non-empty URL in the settings document (the raw `$set`
write path admits arbitrary keys), yet the redirect does not return 302 and
records no click — constructing the `Click` record raises a pydantic
`ValidationError` (a 500), because `Click.vendor` is validated against the
enum. -/
theorem C2_counterexample :
    getKey adminDocEx "mystore" = some "http://mystore.example" ∧
    redirect_vendor dbVendorEx "mystore" none reqEx = (.error .validationErr, dbVendorEx) := by
  exact ⟨rfl, rfl⟩

/-- C2 (amended): for every vendor name belonging to the schema's `Vendor`
enum whose stored value in the first admin-settings document is a non-empty
URL, the vendor redirect returns exactly that URL as a 302 and appends
exactly one click record with target "vendor_logo" and that vendor name. -/
theorem C2_redirect_vendor_configured (db : DB) (vendor : String)
    (uid : Option String) (req : RequestMeta) (s : AdminDoc) (u : String)
    (hv : isVendorName vendor = true)
    (hs : db.adminsetting.head? = some s)
    (hg : getKey s vendor = some u) (hne : u ≠ "") :
    redirect_vendor db vendor uid req =
      (.ok ⟨some u, 302⟩, { db with clicks := db.clicks ++ [mkVendorClick vendor uid req] }) := by
  have hk := hasKey_of_getKey_eq_some s vendor u hg
  have hurl : vendorUrl db vendor = some u := by simp [vendorUrl, hs, hk, hg]
  simp [redirect_vendor, hurl, hne, hv, mkVendorClick]

theorem C2_witness :
    isVendorName "amazon" = true ∧
    getKey adminDocEx "amazon" = some "http://amz.example/tag" ∧
    redirect_vendor dbVendorEx "amazon" (some "u2") reqEx
      = (.ok ⟨some "http://amz.example/tag", 302⟩,
         { dbVendorEx with clicks := [mkVendorClick "amazon" (some "u2") reqEx] }) := by
  refine ⟨rfl, rfl, ?_⟩
  exact C2_redirect_vendor_configured dbVendorEx "amazon" (some "u2") reqEx adminDocEx
    "http://amz.example/tag" rfl rfl rfl (by decide)

/-- C10: the vendor lookup is a raw key-membership test on the stored
settings document, so a reserved key such as `"_id"` whose value is truthy
is treated as a configured affiliate URL: the lookup resolves it and the
request does not fail with the 404 "Link not available yet" response. -/
theorem C10_reserved_key_resolves (db : DB) (uid : Option String)
    (req : RequestMeta) (s : AdminDoc) (u : String)
    (hs : db.adminsetting.head? = some s)
    (hg : getKey s "_id" = some u) (hne : u ≠ "") :
    vendorUrl db "_id" = some u ∧
    (redirect_vendor db "_id" uid req).1 ≠ .error (.httpErr 404 "Link not available yet") := by
  have hk := hasKey_of_getKey_eq_some s "_id" u hg
  have hurl : vendorUrl db "_id" = some u := by simp [vendorUrl, hs, hk, hg]
  refine ⟨hurl, ?_⟩
  simp [redirect_vendor, hurl, hne, isVendorName, vendorNames]

theorem C10_witness :
    getKey adminDocEx "_id" = some "0123456789abcdef01234567" ∧
    vendorUrl dbVendorEx "_id" = some "0123456789abcdef01234567" ∧
    (redirect_vendor dbVendorEx "_id" none reqEx).1
      ≠ .error (.httpErr 404 "Link not available yet") := by
  have h := C10_reserved_key_resolves dbVendorEx none reqEx adminDocEx
    "0123456789abcdef01234567" rfl rfl (by decide)
  exact ⟨rfl, h.1, h.2⟩

/-! ### Claim C7: the hot-deal filter -/

def prodHotA : Product :=
  { id := "aaaa0000000000000000000a", hot_deal := true, hot_deal_expires_at := none,
    updated_at := 30 }

def prodHotB : Product :=
  { id := "bbbb0000000000000000000b", hot_deal := true, hot_deal_expires_at := some (1000 - 3600),
    updated_at := 20 }

def prodHotC : Product :=
  { id := "cccc0000000000000000000c", hot_deal := false, updated_at := 10 }

def dbHotEx : DB := { products := [prodHotA, prodHotB, prodHotC] }

/-- C7: for every timestamp and store, the hot-only product listing returns
exactly the products with `hot_deal = true` and a null or strictly-future
expiry; in particular, for A (hot, no expiry), B (hot, expired an hour ago)
and C (not hot), the listing at `now` is exactly [A]. -/
theorem C7_hot_deal_filter :
    (∀ (db : DB) (now : Int) (p : Product),
        p ∈ list_products_hot db now ↔
          p ∈ db.products ∧ p.hot_deal = true ∧
            (p.hot_deal_expires_at = none ∨
              ∃ t, p.hot_deal_expires_at = some t ∧ now < t)) ∧
    list_products_hot dbHotEx 1000 = [prodHotA] := by
  constructor
  · intro db now p
    unfold list_products_hot
    rw [mem_sortByUpdatedDesc, List.mem_filter]
    constructor
    · rintro ⟨hmem, hflt⟩
      refine ⟨hmem, ?_, ?_⟩
      · exact (Bool.and_eq_true _ _ |>.mp hflt).1
      · have h2 := (Bool.and_eq_true _ _ |>.mp hflt).2
        cases he : p.hot_deal_expires_at with
        | none => exact Or.inl rfl
        | some t =>
          rw [he] at h2
          exact Or.inr ⟨t, rfl, by simpa [hotExpiryActive] using h2⟩
    · rintro ⟨hmem, hhot, hexp⟩
      refine ⟨hmem, ?_⟩
      unfold hotFilter
      rw [hhot, Bool.true_and]
      rcases hexp with he | ⟨t, he, ht⟩
      · simp [he, hotExpiryActive]
      · simp [he, hotExpiryActive, ht]
  · rfl

/-! ### Claim C9: admin-settings singleton and resolver determinism -/

/-- C9: the save path creates the admin-settings document lazily on the
first save — on an empty collection it either inserts exactly the one
document produced by schema validation of the `_id`-stripped payload, or
the pydantic `ValidationError` escapes and nothing is inserted — and on a
nonempty collection it `$set`s the payload onto the first — the existing —
document in place, never inserting a second one; and the vendor resolver's
outcome depends only on the first stored document (`find_one({})`). Stated
for an arbitrary URL validator. -/
theorem C9_adminsetting_singleton :
    (∀ (val : UrlValidator) (db : DB) (payload : List (String × Option String)) (fid : String),
        db.adminsetting = [] →
          (∃ doc,
            mkAdminSettingDoc val (payload.filter (fun kv => kv.1 != "_id")) fid = some doc ∧
            save_admin_settings val db payload fid
              = (.ok (), { db with adminsetting := [doc] })) ∨
          (mkAdminSettingDoc val (payload.filter (fun kv => kv.1 != "_id")) fid = none ∧
            save_admin_settings val db payload fid = (.error .validationErr, db))) ∧
    (∀ (val : UrlValidator) (db : DB) (payload : List (String × Option String)) (fid : String)
        (d : AdminDoc) (rest : List AdminDoc),
        db.adminsetting = d :: rest →
          ((save_admin_settings val db payload fid).2).adminsetting
            = mergeSet (payload.filter (fun kv => kv.1 != "_id")) d :: rest) ∧
    (∀ (db1 db2 : DB) (vendor : String) (uid : Option String) (req : RequestMeta),
        db1.adminsetting.head? = db2.adminsetting.head? →
          (redirect_vendor db1 vendor uid req).1 = (redirect_vendor db2 vendor uid req).1) := by
  refine ⟨?_, ?_, ?_⟩
  · intro val db payload fid h
    cases hmk : mkAdminSettingDoc val (payload.filter (fun kv => kv.1 != "_id")) fid with
    | some doc =>
      left
      exact ⟨doc, rfl, by simp [save_admin_settings, h, hmk]⟩
    | none =>
      right
      exact ⟨rfl, by simp [save_admin_settings, h, hmk]⟩
  · intro val db payload fid d rest h
    simp [save_admin_settings, h, updateFirst]
  · intro db1 db2 vendor uid req h
    have hv : vendorUrl db1 vendor = vendorUrl db2 vendor := by
      unfold vendorUrl
      rw [h]
    simp only [redirect_vendor, hv]
    cases vendorUrl db2 vendor with
    | none => rfl
    | some u =>
      by_cases hu : u = "" <;> by_cases hvn : isVendorName vendor = true <;> simp [hu, hvn]

def dbEmpty : DB := {}

/-- A concrete validator instantiating the witnesses: accepts strings whose
first character is the `h` that opens an http/https scheme, unchanged, and
rejects everything else. The theorem holds for every validator; this one
only exercises both outcomes on the witness inputs. -/
def urlValEx : UrlValidator := fun s =>
  match s.toList with
  | 'h' :: _ => some s
  | _ => none

theorem C9_witness :
    (∃ doc,
      mkAdminSettingDoc urlValEx [("amazon", some "http://a.example")] "ffffffffffffffffffffff01"
        = some doc ∧
      save_admin_settings urlValEx dbEmpty [("amazon", some "http://a.example")]
        "ffffffffffffffffffffff01" = (.ok (), { dbEmpty with adminsetting := [doc] })) ∧
    ((save_admin_settings urlValEx dbVendorEx [("amazon", some "http://b.example")]
        "ffffffffffffffffffffff02").2).adminsetting
      = [mergeSet [("amazon", some "http://b.example")] adminDocEx] ∧
    save_admin_settings urlValEx dbEmpty [("amazon", some "not-a-url")]
      "ffffffffffffffffffffff03" = (.error .validationErr, dbEmpty) := by
  refine ⟨?_, ?_, ?_⟩
  · have h := C9_adminsetting_singleton.1 urlValEx dbEmpty
      [("amazon", some "http://a.example")] "ffffffffffffffffffffff01" rfl
    rcases h with h | h
    · exact h
    · have hs : mkAdminSettingDoc urlValEx
          ([("amazon", some "http://a.example")].filter (fun kv => kv.1 != "_id"))
          "ffffffffffffffffffffff01" ≠ none := by decide
      exact absurd h.1 hs
  · exact C9_adminsetting_singleton.2.1 urlValEx dbVendorEx
      [("amazon", some "http://b.example")] "ffffffffffffffffffffff02" adminDocEx [] rfl
  · have h := C9_adminsetting_singleton.1 urlValEx dbEmpty
      [("amazon", some "not-a-url")] "ffffffffffffffffffffff03" rfl
    rcases h with ⟨doc, hdoc, _⟩ | h
    · have hn : mkAdminSettingDoc urlValEx
          ([("amazon", some "not-a-url")].filter (fun kv => kv.1 != "_id"))
          "ffffffffffffffffffffff03" = none := by decide
      rw [hn] at hdoc
      exact Option.noConfusion hdoc
    · exact h.2

/-! ### Claim C5: counter monotonicity -/

/-- C5 as stated is false: `update_product` accepts an arbitrary `$set`
payload (only `"_id"` is popped), so a generic product update can overwrite
— here decrease — the `clicks` counter, and an operation other than the
product redirect and order creation mutates it. -/
theorem C5_counterexample :
    findProduct dbEx pidEx = some prodEx ∧ prodEx.clicks = 5 ∧
    findProduct (Op.apply (.opUpdateProduct pidEx { clicks := some 0 } 12) dbEx) pidEx
      = some { prodEx with clicks := 0, updated_at := 12 } ∧
    ((0 : Int) < 5) := by
  exact ⟨rfl, rfl, by decide, by decide⟩

theorem redirect_vendor_products_eq (db : DB) (v : String) (uid : Option String)
    (req : RequestMeta) : ((redirect_vendor db v uid req).2).products = db.products := by
  unfold redirect_vendor
  cases vendorUrl db v with
  | none => rfl
  | some u => by_cases hu : u = "" <;> by_cases hv : isVendorName v = true <;> simp [hu, hv]

theorem save_admin_products_eq (val : UrlValidator) (db : DB)
    (payload : List (String × Option String)) (fid : String) :
    ((save_admin_settings val db payload fid).2).products = db.products := by
  unfold save_admin_settings
  cases db.adminsetting.head? with
  | some d => rfl
  | none =>
    cases mkAdminSettingDoc val (payload.filter (fun kv => kv.1 != "_id")) fid <;> rfl

/-- The order document inserted by `create_order`. -/
def mkOrder (uid pid : String) (p : Product) : Order :=
  { user_id := uid, product_id := pid, affiliate_id := p.affiliate_id,
    status := "redirected", vendor_url := p.affiliate_link }

theorem create_order_spec (db : DB) (uid pid : String) (p : Product)
    (hv : isValidObjectId pid = true) (hf : findProduct db pid = some p) :
    create_order db uid pid =
      { db with orders := db.orders ++ [mkOrder uid pid p],
                products := updateFirst (fun q => q.id == pid) bumpOrder db.products } := by
  have hf2 : db.products.find? (fun q => q.id == pid) = some p := hf
  have hid : p.id = pid := by simpa using List.find?_some hf2
  simp [create_order, hv, hf, hid, mkOrder]

/-- C5 (amended): under every modelled operation whose generic
product-update payload does not name the counter fields, and over stores
with pairwise-distinct product ids (the `_id` uniqueness the store
guarantees), both counters of any product present before and after the
operation are non-decreasing; moreover `clicks` is changed by no operation
other than the product redirect, and `orders` by no operation other than
order creation. -/
theorem C5_counters_monotone (op : Op) (db : DB) (pid : String) (p q : Product)
    (hok : op.countersUntouched)
    (hnd : (db.products.map Product.id).Nodup)
    (hp : findProduct db pid = some p)
    (hq : findProduct (op.apply db) pid = some q) :
    (p.clicks ≤ q.clicks ∧ p.orders ≤ q.orders) ∧
    (op.isRedirectProduct = false → q.clicks = p.clicks) ∧
    (op.isCreateOrder = false → q.orders = p.orders) := by
  have hp2 : db.products.find? (fun x => x.id == pid) = some p := hp
  cases op with
  | opCreateProduct pin fid now =>
    have hq2 : (db.products ++ [newProduct pin fid now]).find? (fun x => x.id == pid)
        = some q := hq
    rw [find?_append_some (fun x => x.id == pid) [newProduct pin fid now] hp2] at hq2
    injection hq2 with h
    subst h
    exact ⟨⟨le_refl _, le_refl _⟩, fun _ => rfl, fun _ => rfl⟩
  | opUpdateProduct pid2 pl now =>
    obtain ⟨hc, ho⟩ := hok
    cases hv2 : isValidObjectId pid2 with
    | false =>
      have hA : Op.apply (.opUpdateProduct pid2 pl now) db = db := by
        simp [Op.apply, update_product, hv2]
      rw [hA, hp] at hq
      injection hq with h
      subst h
      exact ⟨⟨le_refl _, le_refl _⟩, fun _ => rfl, fun _ => rfl⟩
    | true =>
      have hq2 : (updateFirst (fun x => x.id == pid2) (applySet pl now) db.products).find?
          (fun x => x.id == pid) = some q := by
        have hA : Op.apply (.opUpdateProduct pid2 pl now) db
            = { db with products :=
                updateFirst (fun x => x.id == pid2) (applySet pl now) db.products } := by
          simp [Op.apply, update_product, hv2]
        rw [hA] at hq
        exact hq
      by_cases he : pid = pid2
      · subst he
        rw [find?_updateFirst_eq Product.id (applySet pl now) pid (fun x => rfl) db.products,
          hp2] at hq2
        have h : applySet pl now p = q := by simpa using hq2
        subst h
        refine ⟨⟨?_, ?_⟩, fun _ => ?_, fun _ => ?_⟩ <;> simp [applySet, hc, ho]
      · rw [find?_updateFirst_ne Product.id (applySet pl now) pid pid2 he (fun x => rfl),
          hp2] at hq2
        injection hq2 with h
        subst h
        exact ⟨⟨le_refl _, le_refl _⟩, fun _ => rfl, fun _ => rfl⟩
  | opDeleteProduct pid2 =>
    cases hv2 : isValidObjectId pid2 with
    | false =>
      have hA : Op.apply (.opDeleteProduct pid2) db = db := by
        simp [Op.apply, delete_product, hv2]
      rw [hA, hp] at hq
      injection hq with h
      subst h
      exact ⟨⟨le_refl _, le_refl _⟩, fun _ => rfl, fun _ => rfl⟩
    | true =>
      have hq2 : (eraseFirst (fun x => x.id == pid2) db.products).find?
          (fun x => x.id == pid) = some q := by
        have hA : Op.apply (.opDeleteProduct pid2) db
            = { db with products := eraseFirst (fun x => x.id == pid2) db.products } := by
          simp [Op.apply, delete_product, hv2]
        rw [hA] at hq
        exact hq
      by_cases he : pid = pid2
      · subst he
        rw [find?_eraseFirst_self Product.id pid db.products hnd] at hq2
        exact absurd hq2 (by simp)
      · rw [find?_eraseFirst_ne Product.id pid pid2 he db.products, hp2] at hq2
        injection hq2 with h
        subst h
        exact ⟨⟨le_refl _, le_refl _⟩, fun _ => rfl, fun _ => rfl⟩
  | opRedirectProduct pid2 uid req now =>
    cases hv2 : isValidObjectId pid2 with
    | false =>
      have hA : Op.apply (.opRedirectProduct pid2 uid req now) db = db := by
        simp [Op.apply, redirect_product, hv2]
      rw [hA, hp] at hq
      injection hq with h
      subst h
      exact ⟨⟨le_refl _, le_refl _⟩, fun _ => rfl, fun _ => rfl⟩
    | true =>
      cases hf2 : findProduct db pid2 with
      | none =>
        have hA : Op.apply (.opRedirectProduct pid2 uid req now) db = db := by
          simp [Op.apply, redirect_product, hv2, hf2]
        rw [hA, hp] at hq
        injection hq with h
        subst h
        exact ⟨⟨le_refl _, le_refl _⟩, fun _ => rfl, fun _ => rfl⟩
      | some r =>
        have hq2 : (updateFirst (fun x => x.id == pid2) (bumpClick now) db.products).find?
            (fun x => x.id == pid) = some q := by
          have hA2 : Op.apply (.opRedirectProduct pid2 uid req now) db
              = (redirect_product db pid2 uid req now).2 := rfl
          rw [hA2, redirect_product_spec db pid2 uid req now r hv2 hf2] at hq
          exact hq
        by_cases he : pid = pid2
        · subst he
          rw [find?_updateFirst_eq Product.id (bumpClick now) pid (fun x => rfl) db.products,
            hp2] at hq2
          have h : bumpClick now p = q := by simpa using hq2
          subst h
          refine ⟨⟨?_, ?_⟩, fun hfl => ?_, fun _ => ?_⟩
          · simp only [bumpClick]
            omega
          · simp [bumpClick]
          · simp [Op.isRedirectProduct] at hfl
          · simp [bumpClick]
        · rw [find?_updateFirst_ne Product.id (bumpClick now) pid pid2 he (fun x => rfl),
            hp2] at hq2
          injection hq2 with h
          subst h
          exact ⟨⟨le_refl _, le_refl _⟩, fun _ => rfl, fun _ => rfl⟩
  | opRedirectVendor v uid req =>
    have hq2 : ((redirect_vendor db v uid req).2).products.find? (fun x => x.id == pid)
        = some q := hq
    rw [redirect_vendor_products_eq db v uid req, hp2] at hq2
    injection hq2 with h
    subst h
    exact ⟨⟨le_refl _, le_refl _⟩, fun _ => rfl, fun _ => rfl⟩
  | opCreateOrder uid pid2 =>
    cases hv2 : isValidObjectId pid2 with
    | false =>
      have hA : Op.apply (.opCreateOrder uid pid2) db = db := by
        simp [Op.apply, create_order, hv2]
      rw [hA, hp] at hq
      injection hq with h
      subst h
      exact ⟨⟨le_refl _, le_refl _⟩, fun _ => rfl, fun _ => rfl⟩
    | true =>
      cases hf2 : findProduct db pid2 with
      | none =>
        have hA : Op.apply (.opCreateOrder uid pid2) db = db := by
          simp [Op.apply, create_order, hv2, hf2]
        rw [hA, hp] at hq
        injection hq with h
        subst h
        exact ⟨⟨le_refl _, le_refl _⟩, fun _ => rfl, fun _ => rfl⟩
      | some r =>
        have hq2 : (updateFirst (fun x => x.id == pid2) bumpOrder db.products).find?
            (fun x => x.id == pid) = some q := by
          have hA2 : Op.apply (.opCreateOrder uid pid2) db = create_order db uid pid2 := rfl
          rw [hA2, create_order_spec db uid pid2 r hv2 hf2] at hq
          exact hq
        by_cases he : pid = pid2
        · subst he
          rw [find?_updateFirst_eq Product.id bumpOrder pid (fun x => rfl) db.products,
            hp2] at hq2
          have h : bumpOrder p = q := by simpa using hq2
          subst h
          refine ⟨⟨?_, ?_⟩, fun _ => ?_, fun hfl => ?_⟩
          · simp [bumpOrder]
          · simp only [bumpOrder]
            omega
          · simp [bumpOrder]
          · simp [Op.isCreateOrder] at hfl
        · rw [find?_updateFirst_ne Product.id bumpOrder pid pid2 he (fun x => rfl),
            hp2] at hq2
          injection hq2 with h
          subst h
          exact ⟨⟨le_refl _, le_refl _⟩, fun _ => rfl, fun _ => rfl⟩
  | opSaveAdminSettings val payload fid =>
    have hq2 : ((save_admin_settings val db payload fid).2).products.find? (fun x => x.id == pid)
        = some q := hq
    rw [save_admin_products_eq val db payload fid, hp2] at hq2
    injection hq2 with h
    subst h
    exact ⟨⟨le_refl _, le_refl _⟩, fun _ => rfl, fun _ => rfl⟩

theorem C5_witness :
    Op.countersUntouched (.opRedirectProduct pidEx none reqEx 11) ∧
    (dbEx.products.map Product.id).Nodup ∧
    (prodEx.clicks ≤ (6 : Int) ∧ prodEx.orders ≤ (2 : Int)) := by
  have h := C5_counters_monotone (.opRedirectProduct pidEx none reqEx 11) dbEx pidEx
    prodEx { prodEx with clicks := 6, updated_at := 11 } trivial (by decide) rfl (by decide)
  exact ⟨trivial, by decide, h.1⟩
